import Mathlib

/-!
# Verification of the fake_server honeypot core

Shallow embedding, in Lean 4, of the parts of the `fake_server` repository
(Go) that the specification's claims are about:

* the copy-on-write session filesystem (`fs.go`, `fs_data.go`),
* the SFTP offset writer (`srv_sftp.go`),
* the pseudo-shell terminal and pipeline executor (`terminal.go` /
  `commands.go`),
* the Telnet read-path byte decoder (`telnet.go`),
* the connection handlers' choice of session filesystem.

Conventions of the embedding:

* Go byte slices are `List Nat` (each element < 256); all shipped file
  contents are ASCII, and the helper `strBytes` performs real UTF-8
  encoding for the few non-ASCII (Chinese) message strings.
* Go maps that are iterated (the overlay, the directory-listing scratch
  map) are association lists with unique keys; iteration order, which Go
  leaves unspecified, is determinized to insertion order.
* `sync` locks and `time.Time` fields (`ModTime`) are elided: no claim
  mentions timestamps, and lock-free interleavings are outside a
  value-level embedding.  Where aliasing of backing arrays matters (the
  BaseFS-immutability claim) a separate explicit-heap model is used.
* Go functions that mutate a `*SessionFS` become functions from the
  state to the new state; Go `error` results become an explicit error
  component.
* Recursions that Go writes with cursor arithmetic use a fuel argument
  (always supplied as an upper bound on the remaining input) so that all
  definitions reduce by `decide`/`rfl`.
-/

/-- UTF-8 encoding of one character (byte values as `Nat`). -/
def utf8Bytes (c : Char) : List Nat :=
  let n := c.toNat
  if n < 0x80 then [n]
  else if n < 0x800 then
    [0xC0 ||| (n >>> 6), 0x80 ||| (n &&& 0x3F)]
  else if n < 0x10000 then
    [0xE0 ||| (n >>> 12), 0x80 ||| ((n >>> 6) &&& 0x3F), 0x80 ||| (n &&& 0x3F)]
  else
    [0xF0 ||| (n >>> 18), 0x80 ||| ((n >>> 12) &&& 0x3F),
     0x80 ||| ((n >>> 6) &&& 0x3F), 0x80 ||| (n &&& 0x3F)]

/-- The byte sequence of a Go string / `[]byte(s)` literal. -/
def strBytes (s : String) : List Nat :=
  s.data.foldr (fun c acc => utf8Bytes c ++ acc) []

/-- Association-list lookup (model of Go map read `m[k]`). -/
def assocGet {α : Type} (m : List (String × α)) (k : String) : Option α :=
  match m with
  | [] => none
  | (k', v) :: rest => if k' = k then some v else assocGet rest k

/-- Association-list update (model of Go map write `m[k] = v`): replaces the
first binding of `k`, or appends a new one. -/
def assocSet {α : Type} (m : List (String × α)) (k : String) (v : α) :
    List (String × α) :=
  match m with
  | [] => [(k, v)]
  | (k', v') :: rest =>
    if k' = k then (k, v) :: rest else (k', v') :: assocSet rest k v

/-- Association-list deletion (model of Go `delete(m, k)`). -/
def assocDel {α : Type} (m : List (String × α)) (k : String) :
    List (String × α) :=
  match m with
  | [] => []
  | (k', v') :: rest =>
    if k' = k then rest else (k', v') :: assocDel rest k

theorem assocGet_assocSet_same {α : Type} (m : List (String × α)) (k : String)
    (v : α) : assocGet (assocSet m k v) k = some v := by
  induction m with
  | nil => simp [assocSet, assocGet]
  | cons hd tl ih =>
    obtain ⟨k', v'⟩ := hd
    by_cases h : k' = k <;> simp [assocSet, assocGet, h, ih]

theorem assocGet_assocSet_ne {α : Type} (m : List (String × α)) (k k' : String)
    (v : α) (h : k ≠ k') : assocGet (assocSet m k v) k' = assocGet m k' := by
  induction m with
  | nil => simp [assocSet, assocGet, h]
  | cons hd tl ih =>
    obtain ⟨k0, v0⟩ := hd
    by_cases h0 : k0 = k
    · subst h0
      simp [assocSet, assocGet, h]
    · simp only [assocSet, if_neg h0]
      by_cases h1 : k0 = k' <;> simp [assocGet, h0, h1, ih]

/-!
## Go `path` package

`path.Clean` is translated from the Go standard library's lazybuf
algorithm.  The output buffer is kept reversed (`rout`); `dotdot` is the
index below which `..` may not backtrack.  A fuel argument (an upper bound
on the remaining input length) keeps the recursion structural.
-/

/-- The backtracking loop of `path.Clean`'s `..` case: Go's
`out.w--; for out.w > dotdot && out.index(out.w) != '/' { out.w-- }`,
expressed on the reversed buffer.  `c` is the character just removed. -/
def lazybufBack (dotdot : Nat) : Char → List Char → List Char
  | _, [] => []
  | c, c2 :: rest =>
    if dotdot < rest.length + 1 ∧ c ≠ '/' then lazybufBack dotdot c2 rest
    else c2 :: rest

/-- Main loop of `path.Clean`.  `cs` is the unread input, `rout` the
reversed output buffer, `dotdot` as in the Go source. -/
def cleanLoop (rooted : Bool) :
    Nat → List Char → List Char → Nat → List Char
  | 0, _, rout, _ => rout
  | _ + 1, [], rout, _ => rout
  | fuel + 1, c :: rest, rout, dotdot =>
    if c = '/' then
      -- empty path element
      cleanLoop rooted fuel rest rout dotdot
    else if c = '.' ∧ (rest = [] ∨ rest.head? = some '/') then
      -- `.` element
      cleanLoop rooted fuel rest rout dotdot
    else if c = '.' ∧ rest.head? = some '.' ∧
        (rest.tail = [] ∨ rest.tail.head? = some '/') then
      -- `..` element
      let rest2 := rest.tail
      if dotdot < rout.length then
        let rout' := match rout with
          | [] => []
          | c2 :: r => lazybufBack dotdot c2 r
        cleanLoop rooted fuel rest2 rout' dotdot
      else if rooted = false then
        let rout' := if rout.length > 0 then '.' :: '.' :: '/' :: rout
                     else '.' :: '.' :: rout
        cleanLoop rooted fuel rest2 rout' rout'.length
      else
        cleanLoop rooted fuel rest2 rout dotdot
    else
      -- real path element: add slash if needed, then copy the element
      let rout' := if (rooted = true ∧ rout.length ≠ 1) ∨
                      (rooted = false ∧ rout.length ≠ 0) then '/' :: rout
                   else rout
      let seg := rest.takeWhile (fun c' => c' ≠ '/')
      let rest' := rest.dropWhile (fun c' => c' ≠ '/')
      cleanLoop rooted fuel rest' (seg.reverse ++ c :: rout') dotdot

/-- Go `path.Clean`. -/
def pathClean (p : String) : String :=
  if p = "" then "." else
  let cs := p.data
  let rooted := cs.head? = some '/'
  let start := if rooted then cs.tail else cs
  let rout0 : List Char := if rooted then ['/'] else []
  let dd := if rooted then 1 else 0
  let rout := cleanLoop rooted (cs.length + 1) start rout0 dd
  if rout.length = 0 then "." else String.mk rout.reverse

/-- Go `path.Base`. -/
def pathBase (p : String) : String :=
  if p = "" then "." else
  -- strip trailing slashes, then take everything after the final slash
  let rcs := (p.data.reverse).dropWhile (fun c => c = '/')
  let seg := rcs.takeWhile (fun c => c ≠ '/')
  if seg = [] then "/" else String.mk seg.reverse

/-- Go `path.Dir`: the portion up to and including the final slash,
cleaned. -/
def pathDir (p : String) : String :=
  let rcs := (p.data.reverse).dropWhile (fun c => c ≠ '/')
  pathClean (String.mk rcs.reverse)

/-- Go `path.Join` restricted to two elements (the repository only ever
joins two): empty elements are dropped, the rest joined with `/` and
cleaned. -/
def pathJoin2 (a b : String) : String :=
  if a = "" ∧ b = "" then ""
  else if a = "" then pathClean b
  else if b = "" then pathClean a
  else pathClean (a ++ "/" ++ b)

/-- Go `strings.HasPrefix` (char-level; exact for the ASCII prefixes the
code tests). -/
def goHasPref (s pre : String) : Bool := pre.data.isPrefixOf s.data

/-- Go `s[n:]` for an ASCII prefix of length `n`. -/
def goDrop (s : String) (n : Nat) : String := String.mk (s.data.drop n)

/-- Go `strings.Join`. -/
def goJoin (xs : List String) (sep : String) : String :=
  match xs with
  | [] => ""
  | x :: rest => rest.foldl (fun acc y => acc ++ sep ++ y) x

/-!
## Data model (`fs.go`)

`FileEntry` elides the `ModTime time.Time` field and the per-entry
`sync.RWMutex` (no claim mentions timestamps or lock state).  `Mode` is a
`Nat` holding the Go `os.FileMode` bits (`os.ModeDir = 1 <<< 31`).
-/

/-- Limit on a single file, `MaxFileSize = 5 << 20` (`fs.go`). -/
def MaxFileSize : Nat := 5 <<< 20

/-- `os.ModeDir`. -/
def osModeDir : Nat := 1 <<< 31

/-- `FileEntry` (`fs.go`): file metadata plus content bytes. -/
structure FileEntry where
  name : String
  isDir : Bool
  content : List Nat
  mode : Nat
  uid : Nat
  gid : Nat
  nlink : Nat
  deriving Repr, DecidableEq

/-- The overlay value: `*FileEntry`, where Go's `nil` (a tombstone) is
`none`. -/
abbrev OverlayVal := Option FileEntry

/-- `SessionFS` (`fs.go`): the per-session overlay plus current working
directory.  The overlay map is an association list with unique keys. -/
structure SessionFS where
  overlay : List (String × OverlayVal)
  cwd : String
  deriving Repr, DecidableEq

/-- `NewSessionFS` (`fs.go`). -/
def NewSessionFS : SessionFS := { overlay := [], cwd := "/root" }

/-- The immutable base image: `BaseFS` (path → entry) together with the
precomputed `BaseFSDirCache` (directory → children).  The Go code reads
these through package-level variables; the embedding passes them
explicitly. -/
structure BaseImage where
  find : String → Option FileEntry
  dirChildren : String → List FileEntry

/-- Go `a &^ b` (AND NOT) on non-negative integers: clear in `a` the bits
set in `b`. -/
def goAndNot (a b : Nat) : Nat := a - (a &&& b)

/-- Go `error` values the filesystem layer produces. -/
inductive GoErr where
  | errNew (msg : String)      -- `errors.New(msg)`
  | notExist                   -- `os.ErrNotExist`
  | panicked (msg : String)    -- a Go runtime panic (slice bounds)
  deriving Repr, DecidableEq

/-- `%v` rendering of a `GoErr` (`os.ErrNotExist` prints
"file does not exist"). -/
def GoErr.message : GoErr → String
  | .errNew m => m
  | .notExist => "file does not exist"
  | .panicked m => m

/-- `SessionFS.Abs` (`fs.go`): make a path absolute relative to `cwd`,
expanding `~`. -/
def SessionFS.abs (fs : SessionFS) (p : String) : String :=
  if p = "" then fs.cwd
  else if p = "~" then "/root"
  else if goHasPref p "~/" then pathJoin2 "/root" (goDrop p 2)
  else if goHasPref p "/" then pathClean p
  else pathClean (pathJoin2 fs.cwd p)

/-- `SessionFS.GetEntry` (`fs.go`): overlay first (a `nil` entry is a
tombstone), then BaseFS. -/
def SessionFS.getEntry (fs : SessionFS) (base : BaseImage) (p : String) :
    Option FileEntry :=
  let p := pathClean p
  match assocGet fs.overlay p with
  | some (some e) => some e
  | some none => none
  | none => base.find p

/-- `SessionFS.Write` (`fs.go`): quota check, then either update the
existing overlay entry's content (and mode when `mode ≠ 0`) or create a
fresh overlay entry inheriting uid/gid/mode from BaseFS. -/
def SessionFS.write (fs : SessionFS) (base : BaseImage) (p : String)
    (data : List Nat) (mode : Nat) : Except GoErr SessionFS :=
  if data.length > MaxFileSize then .error (.errNew "超出磁盘限额")
  else
    let p := pathClean p
    match assocGet fs.overlay p with
    | some (some existing) =>
      let existing := { existing with
        content := data
        mode := if mode ≠ 0 then mode else existing.mode }
      .ok { fs with overlay := assocSet fs.overlay p (some existing) }
    | _ =>
      let (uid, gid, mode) := match base.find p with
        | some b => (b.uid, b.gid, if mode = 0 then b.mode else mode)
        | none => (0, 0, if mode = 0 then 0o644 else mode)
      .ok { fs with overlay := assocSet fs.overlay p (some
        { name := pathBase p, isDir := false, content := data, mode := mode,
          uid := uid, gid := gid, nlink := 1 }) }

/-- The state produced by `SessionFS.Mkdir` (`fs.go`): unconditionally
installs a fresh root-owned directory entry at the cleaned path. -/
def SessionFS.mkdirFS (fs : SessionFS) (p : String) : SessionFS :=
  let p := pathClean p
  { fs with overlay := assocSet fs.overlay p (some
    { name := pathBase p, isDir := true, content := [],
      mode := 0o755 ||| osModeDir, uid := 0, gid := 0, nlink := 2 }) }

/-- `SessionFS.Mkdir` (`fs.go`): always returns `nil` error. -/
def SessionFS.mkdir (fs : SessionFS) (p : String) : Except GoErr SessionFS :=
  .ok (fs.mkdirFS p)

/-- `SessionFS.Remove` (`fs.go`): writes a tombstone unconditionally. -/
def SessionFS.remove (fs : SessionFS) (p : String) : Except GoErr SessionFS :=
  .ok { fs with overlay := assocSet fs.overlay (pathClean p) none }

/-- `SessionFS.Rename` (`fs.go`): read the source with `GetEntry`, put a
shallow copy (renamed) at the new path, tombstone the old path.  Note the
source does not `Clean` either argument. -/
def SessionFS.rename (fs : SessionFS) (base : BaseImage) (oldP newP : String) :
    Except GoErr SessionFS :=
  match fs.getEntry base oldP with
  | none => .error .notExist
  | some e =>
    let newEntry := { e with name := pathBase newP }
    let ov := assocSet (assocSet fs.overlay newP (some newEntry)) oldP none
    .ok { fs with overlay := ov }

/-- `SessionFS.Chmod` (`fs.go`): update permission bits in place when the
entry is already in overlay, otherwise copy the base entry (shallow) into
overlay with updated bits. -/
def SessionFS.chmod (fs : SessionFS) (base : BaseImage) (p : String)
    (mode : Nat) : Except GoErr SessionFS :=
  match fs.getEntry base p with
  | none => .error .notExist
  | some e =>
    match assocGet fs.overlay p with
    | some (some existing) =>
      let existing := { existing with
        mode := goAndNot existing.mode 0o777 ||| (mode &&& 0o777) }
      .ok { fs with overlay := assocSet fs.overlay p (some existing) }
    | _ =>
      let newEntry := { e with
        mode := goAndNot e.mode 0o777 ||| (mode &&& 0o777) }
      .ok { fs with overlay := assocSet fs.overlay p (some newEntry) }

/-- `SessionFS.Chown` (`fs.go`): like `Chmod` but for uid/gid, `-1`
meaning "keep" (the embedding uses `Option Nat`, `none` for `-1`). -/
def SessionFS.chown (fs : SessionFS) (base : BaseImage) (p : String)
    (uid gid : Option Nat) : Except GoErr SessionFS :=
  match fs.getEntry base p with
  | none => .error .notExist
  | some e =>
    match assocGet fs.overlay p with
    | some (some existing) =>
      let existing := { existing with
        uid := uid.getD existing.uid, gid := gid.getD existing.gid }
      .ok { fs with overlay := assocSet fs.overlay p (some existing) }
    | _ =>
      let newEntry := { e with uid := uid.getD e.uid, gid := gid.getD e.gid }
      .ok { fs with overlay := assocSet fs.overlay p (some newEntry) }

/-!
## Directory listing (`fs.go`, `ListDir`)

Go builds a scratch map `items` (name → entry) from the cached BaseFS
children, applies every overlay binding whose parent is the directory,
then sorts the values by lower-cased name with `sort.Slice`.  The
embedding keeps `items` as an association list in insertion order and
uses `List.insertionSort` as a deterministic stand-in for `sort.Slice`
(the Go sort is unstable and the map iteration order unspecified; the
claims proved below — the sortedness of the result and which entries it
is a permutation of — do not depend on that choice).
-/

/-- `strings.ToLower`, per character (all names in the image are ASCII,
where `Char.toLower` agrees with Go). -/
def lowerStr (s : String) : String := String.mk (s.data.map Char.toLower)

/-- The comparator of `ListDir`'s `sort.Slice` call, as a (non-strict)
relation: entry `a` may precede `b` when `lower(a.name) ≤ lower(b.name)`. -/
def nameLe (a b : FileEntry) : Prop := lowerStr a.name ≤ lowerStr b.name

instance : DecidableRel nameLe := fun a b =>
  inferInstanceAs (Decidable (lowerStr a.name ≤ lowerStr b.name))

instance : IsTotal FileEntry nameLe :=
  ⟨fun a b => le_total (lowerStr a.name) (lowerStr b.name)⟩

instance : IsTrans FileEntry nameLe :=
  ⟨fun _ _ _ hab hbc => le_trans hab hbc⟩

/-- The scratch map of `ListDir` after both merge phases: BaseFS cached
children keyed by name, then each overlay binding under `dirPath` applied
(tombstone → delete by `path.Base` of the key, entry → set by its
name). -/
def SessionFS.listItems (fs : SessionFS) (base : BaseImage)
    (dirPath : String) : List (String × FileEntry) :=
  let items0 := (base.dirChildren dirPath).foldl
    (fun m e => assocSet m e.name e) []
  fs.overlay.foldl
    (fun m pe =>
      if pathDir pe.1 = dirPath ∧ pe.1 ≠ dirPath then
        match pe.2 with
        | none => assocDel m (pathBase pe.1)
        | some e => assocSet m e.name e
      else m)
    items0

/-- `SessionFS.ListDir` (`fs.go`): `nil, os.ErrNotExist` when the path
does not resolve to a directory, otherwise the merged children sorted by
lower-cased name. -/
def SessionFS.listDir (fs : SessionFS) (base : BaseImage) (dirPath : String) :
    Except GoErr (List FileEntry) :=
  let dirPath := pathClean dirPath
  match fs.getEntry base dirPath with
  | none => .error .notExist
  | some entry =>
    if entry.isDir then
      .ok (List.insertionSort nameLe ((fs.listItems base dirPath).map (·.2)))
    else .error .notExist

/-!
## SFTP offset writes (`srv_sftp.go`, `SFTPWriter.WriteAt`)

`WriteAt` runs in two phases.  Phase 1 (under the overlay lock)
find-or-materializes the overlay entry, deep-copying the BaseFS content;
note that this happens *before* the quota check, so a failing call still
leaves the materialized entry in the overlay — the embedding therefore
returns the updated state *and* an optional error.  Phase 2 computes
`end := int(off) + len(p)` in 64-bit two's-complement arithmetic, checks
the quota, grows/extends the content, and copies `p` at `off`.

Value-level simplifications, documented:
* capacity bookkeeping (the doubling growth strategy) is dropped — it
  changes allocation behaviour, not the resulting bytes;
* bytes exposed by extending a slice within capacity are modeled as
  zeros, which is exact whenever the backing array came from `make`
  (the aliasing corner where it is not, is treated by the explicit-heap
  model below);
* the two Go slice-bounds panics (`entry.Content[off:]` with `off`
  negative or beyond the length) are modeled as a `panicked` error.
-/

/-- 64-bit two's-complement wrap-around of an integer (Go `int`
arithmetic on a 64-bit platform). -/
def int64Wrap (z : Int) : Int := (z + 2 ^ 63) % 2 ^ 64 - 2 ^ 63

/-- `copy(dst[off:], p)` at the value level: overwrite `dst` from
position `off` with `p`, copying `min(dst.length - off, p.length)` bytes
as Go's `copy` does. -/
def copyAt (dst : List Nat) (off : Nat) (p : List Nat) : List Nat :=
  let n := min (dst.length - off) p.length
  dst.take off ++ p.take n ++ dst.drop (off + n)

/-- `SFTPWriter.WriteAt` (`srv_sftp.go`).  Returns the session state after
the call together with `none` (success) or the Go error produced. -/
def SessionFS.writeAt (fs : SessionFS) (base : BaseImage) (path : String)
    (p : List Nat) (off : Int) : SessionFS × Option GoErr :=
  -- phase 1: find-or-materialize the overlay entry (the source uses
  -- `w.path` directly, without `Clean`)
  let entry : FileEntry :=
    match assocGet fs.overlay path with
    | some (some e) => e
    | _ =>
      let (baseContent, mode, uid, gid) :=
        match base.find path with
        | some be => (be.content, be.mode, be.uid, be.gid)
        | none => ([], 0o644, 0, 0)
      { name := pathBase path, isDir := false, content := baseContent,
        mode := mode, uid := uid, gid := gid, nlink := 0 }
  let fs1 := { fs with overlay := assocSet fs.overlay path (some entry) }
  -- phase 2
  let endPos : Int := int64Wrap (off + p.length)
  if endPos > (MaxFileSize : Int) then
    (fs1, some (.errNew "quota exceeded"))
  else
    let content := entry.content
    let content := if endPos > (content.length : Int) then
        content ++ List.replicate (endPos.toNat - content.length) 0
      else content
    if off < 0 ∨ (content.length : Int) < off then
      (fs1, some (.panicked "slice bounds out of range"))
    else
      let content := copyAt content off.toNat p
      ({ fs1 with
         overlay := assocSet fs1.overlay path (some
           { entry with content := content }) }, none)

/-!
## The base image (`fs_data.go`, `initFS`)

Transcription of the static filesystem built at process start.  The
`ModTime` stamps (all "now" at startup) are elided with the rest of the
time model.  `BaseFSDirCache` is built, as in the source, by walking the
entries and appending each one to its parent's list (insertion order
stands in for Go's unspecified map iteration order).
-/

/-- The directory paths created by `initFS`. -/
def initDirs : List String :=
  ["/", "/bin", "/boot", "/dev", "/etc", "/home", "/lib", "/lib64",
   "/media", "/mnt", "/opt", "/proc", "/root", "/run", "/sbin",
   "/srv", "/sys", "/tmp", "/usr", "/var", "/usr/bin", "/usr/sbin",
   "/usr/local", "/usr/local/bin", "/var/log", "/home/user",
   "/etc/ssh", "/etc/systemd", "/etc/network",
   "/proc/sys", "/proc/sys/kernel", "/proc/net",
   "/sys/class", "/sys/class/net", "/sys/class/net/eth0",
   "/var/www", "/var/www/html"]

/-- `/etc/passwd` content (`passwdContent` in `initFS`). -/
def passwdContent : String :=
  "root:x:0:0:root:/root:/bin/bash\n" ++
  "daemon:x:1:1:daemon:/usr/sbin:/usr/sbin/nologin\n" ++
  "bin:x:2:2:bin:/bin:/usr/sbin/nologin\n" ++
  "sys:x:3:3:sys:/dev:/usr/sbin/nologin\n" ++
  "sync:x:4:65534:sync:/bin:/bin/sync\n" ++
  "games:x:5:60:games:/usr/games:/usr/sbin/nologin\n" ++
  "man:x:6:12:man:/var/cache/man:/usr/sbin/nologin\n" ++
  "lp:x:7:7:lp:/var/spool/lpd:/usr/sbin/nologin\n" ++
  "mail:x:8:8:mail:/var/mail:/usr/sbin/nologin\n" ++
  "news:x:9:9:news:/var/spool/news:/usr/sbin/nologin\n" ++
  "www-data:x:33:33:www-data:/var/www:/usr/sbin/nologin\n" ++
  "sshd:x:108:65534::/run/sshd:/usr/sbin/nologin\n" ++
  "user:x:1000:1000:user:/home/user:/bin/bash\n"

/-- `/etc/group` content (`groupContent` in `initFS`). -/
def groupContent : String :=
  "root:x:0:\n" ++ "daemon:x:1:\n" ++ "bin:x:2:\n" ++ "sys:x:3:\n" ++
  "adm:x:4:syslog\n" ++ "tty:x:5:\n" ++ "disk:x:6:\n" ++ "lp:x:7:\n" ++
  "mail:x:8:\n" ++ "news:x:9:\n" ++ "www-data:x:33:\n" ++ "sshd:x:108:\n" ++
  "user:x:1000:\n"

/-- The canonical `/etc/hosts` content. -/
def hostsContent : String := "127.0.0.1 localhost\n127.0.1.1 ubuntu-server\n"

/-- The `add` helper of `initFS`: a plain file entry. -/
def addEntry (filePath content : String) (mode uid gid : Nat) :
    String × FileEntry :=
  (filePath,
   { name := pathBase filePath, isDir := false, content := strBytes content,
     mode := mode, uid := uid, gid := gid, nlink := 1 })

/-- The simulated command names given `/bin` and `/usr/bin` stubs. -/
def initCmds : List String :=
  ["ls", "cd", "pwd", "cat", "echo", "touch", "mkdir", "rm", "mv", "cp",
   "grep", "ps", "top", "kill", "id", "whoami", "w", "last", "history",
   "date", "uptime", "free", "df", "uname", "stty", "env", "clear", "exit",
   "vi", "vim", "wget", "curl", "ssh", "chmod", "chown", "which", "find",
   "head", "tail", "wc", "export", "mount", "stat", "who", "sudo",
   "ping", "netstat", "ss", "sleep", "ln", "rmdir", "more", "less",
   "kernelpanic"]

/-- The placeholder ELF stub bytes (`binContent` in `initFS`). -/
def binContent : List Nat :=
  [0x7f, 0x45, 0x4c, 0x46, 0x02, 0x01, 0x01, 0x00, 0x00, 0x00, 0x00, 0x00,
   0x00, 0x00, 0x00, 0x00, 0x02, 0x00, 0x3e, 0x00, 0x01, 0x00, 0x00, 0x00]

/-- All `BaseFS` bindings of `initFS`, in insertion order. -/
def initBaseFS : List (String × FileEntry) :=
  (initDirs.map fun d =>
    (d, { name := pathBase d, isDir := true, content := [],
          mode := 0o755 ||| osModeDir, uid := 0, gid := 0, nlink := 2 })) ++
  [addEntry "/etc/passwd" passwdContent 0o644 0 0,
   addEntry "/etc/group" groupContent 0o644 0 0,
   addEntry "/etc/hostname" "ubuntu-server" 0o644 0 0,
   addEntry "/etc/os-release"
     ("PRETTY_NAME=\"Ubuntu 22.04.1 LTS\"\nNAME=\"Ubuntu\"\nVERSION_ID=\"22.04\"\nVERSION=\"22.04.1 LTS (Jammy Jellyfish)\"\nID=ubuntu\n")
     0o644 0 0,
   addEntry "/etc/issue" "Ubuntu 22.04.1 LTS \\n \\l\n" 0o644 0 0,
   addEntry "/etc/shadow"
     "root:*:18890:0:99999:7:::\nuser:$6$...:18890:0:99999:7:::\n" 0o640 0 42,
   addEntry "/root/.bashrc"
     ("export PS1='\\[\\033[01;32m\\]\\u@\\h\\[\\033[00m\\]:\\[\\033[01;34m\\]\\w\\[\\033[00m\\]\\$ '\nalias ll='ls -alF'\n")
     0o644 0 0,
   addEntry "/etc/hosts" hostsContent 0o644 0 0,
   addEntry "/etc/resolv.conf" "nameserver 1.1.1.1\nnameserver 8.8.8.8\n"
     0o644 0 0,
   addEntry "/etc/fstab" "/dev/sda2 / ext4 defaults 0 0\n" 0o644 0 0,
   addEntry "/proc/version"
     ("Linux version 5.15.0-generic (buildd@lcy02-amd64-001) (gcc version 11.2.0 (Ubuntu 11.2.0-19ubuntu1))")
     0o444 0 0,
   addEntry "/proc/cpuinfo"
     ("processor\t: 0\nvendor_id\t: GenuineIntel\ncpu family\t: 6\nmodel\t\t: 165\nmodel name\t: Intel(R) Core(TM) i7-10700 CPU @ 2.90GHz\n\nprocessor\t: 1\nvendor_id\t: GenuineIntel\ncpu family\t: 6\nmodel\t\t: 165\nmodel name\t: Intel(R) Core(TM) i7-10700 CPU @ 2.90GHz\n")
     0o444 0 0,
   addEntry "/proc/meminfo"
     ("MemTotal:       16303284 kB\nMemFree:         2543210 kB\nMemAvailable:   10234123 kB\nBuffers:          223412 kB\nCached:          8123456 kB\nSwapTotal:       2097148 kB\nSwapFree:        2097148 kB\n")
     0o444 0 0,
   addEntry "/proc/uptime" "3600.00 7100.00" 0o444 0 0,
   addEntry "/proc/loadavg" "0.01 0.05 0.05 1/256 12345" 0o444 0 0,
   addEntry "/sys/class/net/eth0/address" "00:11:22:33:44:55\n" 0o444 0 0,
   addEntry "/dev/null" "" 0o666 0 0,
   addEntry "/dev/zero" "" 0o666 0 0,
   addEntry "/dev/random" "gibberish..." 0o666 0 0,
   addEntry "/dev/urandom" "more gibberish..." 0o666 0 0] ++
  (initCmds.foldr (fun c acc =>
    ("/bin/" ++ c,
     { name := c, isDir := false, content := binContent, mode := 0o755,
       uid := 0, gid := 0, nlink := 1 }) ::
    ("/usr/bin/" ++ c,
     { name := c, isDir := false, content := binContent, mode := 0o755,
       uid := 0, gid := 0, nlink := 1 }) :: acc) [])

/-- The concrete base image built by `initFS`: map lookup over the
bindings, and the parent→children cache (`p ≠ path.Dir(p)` keeps `/` out
of its own listing). -/
def initBase : BaseImage where
  find p := assocGet initBaseFS p
  dirChildren dir :=
    (initBaseFS.filter fun pe => pathDir pe.1 = dir ∧ pe.1 ≠ pathDir pe.1).map
      (·.2)

/-- `GlobalSessionFS` (`fs_data.go`): the single session filesystem every
connection handler uses. -/
def initialGlobalSessionFS : SessionFS := NewSessionFS

/-!
## Terminal and command library (`terminal.go`, `commands.go`)

The `Terminal` keeps a reference to its `SessionFS`; sharing of that
pointer between sessions is modeled by threading the state explicitly.
I/O readers/writers become byte lists: a command is a function from its
stdin bytes to (new state, stdout bytes).  `isTTY(out)` becomes a boolean
parameter (`true` for the terminal-facing sink and — as in the source's
fallback branch — for the redirection buffer, `false` for pipes).

Commands whose branches no claim touches (`ps`, `whoami`, `id`, `date`,
`uptime`, `clear`, `wget`/`curl`, `uname`, `free`, `df`, `chmod`,
`chown`, `head`/`tail`, `ping`, `sudo`, `sleep`, `netstat`/`ss`,
`more`/`less`, `history`, `export`, `kernelpanic`) are elided as no-ops;
they remain in the switch-case list so the `default` branch (unknown
command) stays faithful.  Within `ls`, the `-l` long format and the `-t`
modification-time sort are elided (they are presentation of the elided
time model); the error branch, flag parsing, dotfile filtering, `-r` and
the short format are modeled in full.
-/

/-- Terminal state (`terminal.go`): the line-editing buffers, window size
and raw-mode plumbing are elided (no claim mentions them). -/
structure Terminal where
  fs : SessionFS
  env : List (String × String)
  history : List String
  lastExitCode : Nat
  running : Bool
  pid : Nat
  deriving Repr, DecidableEq

/-- `NewTerminal` (`terminal.go`). -/
def NewTerminal (fs : SessionFS) (env : List (String × String)) (pid : Nat) :
    Terminal :=
  { fs := fs, env := env, history := [], lastExitCode := 0, running := true,
    pid := pid }

/-- `bufio.ScanLines`' trailing-`\r` strip. -/
def dropCR (l : List Nat) : List Nat :=
  if l.getLast? = some 13 then l.dropLast else l

/-- The token sequence a `bufio.Scanner` with `ScanLines` produces from a
byte stream: lines without their terminators; a final unterminated line
is a token, a trailing newline does not create an empty one. -/
def scanLines (bs : List Nat) : List (List Nat) :=
  if bs = [] then []
  else
    let parts := bs.splitOn 10
    (if parts.getLast? = some [] then parts.dropLast else parts).map dropCR

/-- Go `strings.Contains` / `bytes.Contains` on byte lists. -/
def containsSub (hay needle : List Nat) : Bool :=
  needle.isPrefixOf hay ||
    match hay with
    | [] => false
    | _ :: rest => containsSub rest needle

/-- Loop of `strings.ReplaceAll` for a non-empty pattern (fuel is the
haystack length). -/
def replaceAllLoop (needle repl : List Nat) : Nat → List Nat → List Nat
  | _, [] => []
  | 0, hay => hay
  | fuel + 1, b :: rest =>
    if needle.isPrefixOf (b :: rest) then
      repl ++ replaceAllLoop needle repl fuel ((b :: rest).drop needle.length)
    else b :: replaceAllLoop needle repl fuel rest

/-- Go `strings.ReplaceAll` (on byte lists). -/
def replaceAllGo (hay needle repl : List Nat) : List Nat :=
  if needle = [] then repl ++ hay.foldr (fun b acc => b :: repl ++ acc) []
  else replaceAllLoop needle repl hay.length hay

/-- The environment-variable expansion at the top of `runCommand`:
arguments after the command name beginning with `$` are substituted. -/
def expandArgs (t : Terminal) (args : List String) : List String :=
  match args with
  | [] => []
  | cmd :: rest =>
    cmd :: rest.map fun a =>
      if goHasPref a "$" then
        let varName := goDrop a 1
        match assocGet t.env varName with
        | some v => v
        | none =>
          if varName = "?" then toString t.lastExitCode
          else if varName = "$" then toString t.pid
          else a
      else a

/-- ANSI color wrapper used by `ls` (blue directories). -/
def colorBlue (s : String) : String := "\x1b[1;34m" ++ s ++ "\x1b[0m"

/-- ANSI color wrapper used by `ls` and `grep` (green executables, red
matches handled separately). -/
def colorGreen (s : String) : String := "\x1b[1;32m" ++ s ++ "\x1b[0m"

/-- One `ls` flag lookup (Go `opts[string(char)]`). -/
def lsOpt (opts : List (String × Bool)) (k : String) : Bool :=
  (assocGet opts k).getD false

/-- The `ls` branch of `runCommand`: flag/path parsing, then per path
either the error message with exit code 2 or the (short-format)
listing. -/
def runLs (base : BaseImage) (tty : Bool) (t : Terminal) (cmd : String)
    (rest : List String) : Terminal × List Nat :=
  let dir := t.fs.cwd
  let opts0 : List (String × Bool) :=
    [("a", false), ("l", cmd = "ll"), ("h", false), ("t", false),
     ("r", false), ("R", false)]
  let (opts, paths) := rest.foldl
    (fun (acc : List (String × Bool) × List String) arg =>
      if goHasPref arg "-" then
        ((goDrop arg 1).data.foldl
          (fun o ch => assocSet o (String.mk [ch]) true) acc.1, acc.2)
      else (acc.1, acc.2 ++ [t.fs.abs arg]))
    (opts0, [])
  let paths := if paths = [] then [dir] else paths
  let useColor := tty
  paths.foldl
    (fun (acc : Terminal × List Nat) p =>
      let (t, out) := acc
      match t.fs.listDir base p with
      | .error err =>
        ({ t with lastExitCode := 2 },
         out ++ strBytes ("ls: 无法访问 '" ++ p ++ "': " ++ err.message ++ "\n"))
      | .ok files =>
        -- `-t` (sort by the elided ModTime) is a no-op here
        let files := if lsOpt opts "r" then files.reverse else files
        if lsOpt opts "l" then
          (t, out)  -- long format elided (time-based presentation)
        else
          let line := files.foldl
            (fun l f =>
              if ¬ lsOpt opts "a" ∧ goHasPref f.name "." then l
              else
                let nameColor :=
                  if useColor then
                    if f.isDir then colorBlue f.name
                    else if f.mode &&& 0o111 ≠ 0 then colorGreen f.name
                    else f.name
                  else f.name
                l ++ strBytes (nameColor ++ "  "))
            []
          (t, out ++ line ++ strBytes "\n"))
    (t, [])

/-- The `grep` line loop (`doGrep` in the source). -/
def doGrep (useColor : Bool) (pattern : String) (manyFiles : Bool)
    (fname : String) (lines : List (List Nat)) : List Nat :=
  lines.foldl
    (fun out line =>
      if containsSub line (strBytes pattern) then
        let prefixBytes :=
          if manyFiles then
            if useColor then strBytes ("\x1b[35m" ++ fname ++ "\x1b[0m:")
            else strBytes (fname ++ ":")
          else []
        let outputLine :=
          if useColor then
            replaceAllGo line (strBytes pattern)
              (strBytes ("\x1b[1;31m" ++ pattern ++ "\x1b[0m"))
          else line
        out ++ prefixBytes ++ outputLine ++ strBytes "\n"
      else out)
    []

/-- The Go switch-case labels of `runCommand` whose bodies are elided
no-ops in this embedding (their outputs are canned text, in-memory
presentation state, or recursive dispatch that no claim touches). -/
def elidedCmds : List String :=
  ["ps", "whoami", "id", "date", "uptime", "clear", "wget", "curl",
   "uname", "free", "df", "chmod", "chown", "head", "tail", "ping",
   "sudo", "sleep", "netstat", "ss", "more", "less", "history", "export",
   "kernelpanic"]

/-- Every case label of the `runCommand` switch; a command name outside
this list falls into the `default` branch. -/
def switchCmds : List String :=
  ["ls", "ll", "cd", "pwd", "cat", "echo", "cp", "mv", "mkdir", "rm",
   "rmdir", "touch", "grep", "wc", "exit", "logout"] ++ elidedCmds

/-- `Terminal.runCommand` (`commands.go`): execute one command with the
given stdin bytes, returning the new terminal state and the bytes written
to stdout.  `tty` is `isTTY(out)` for the output writer. -/
def Terminal.runCommand (t : Terminal) (base : BaseImage) (tty : Bool)
    (args0 : List String) (input : List Nat) : Terminal × List Nat :=
  match expandArgs t args0 with
  | [] => (t, [])
  | cmd :: rest =>
    if cmd = "ls" ∨ cmd = "ll" then runLs base tty t cmd rest
    else if cmd = "cd" then
      match rest with
      | [] => ({ t with fs := { t.fs with cwd := "/root" } }, [])
      | a :: _ =>
        let target := t.fs.abs a
        match t.fs.getEntry base target with
        | some e =>
          if e.isDir then ({ t with fs := { t.fs with cwd := target } }, [])
          else ({ t with lastExitCode := 1 },
            strBytes ("-bash: cd: " ++ a ++ ": 没有那个文件或目录\n"))
        | none =>
          ({ t with lastExitCode := 1 },
           strBytes ("-bash: cd: " ++ a ++ ": 没有那个文件或目录\n"))
    else if cmd = "pwd" then (t, strBytes (t.fs.cwd ++ "\n"))
    else if cmd = "cat" then
      match rest with
      | [] => (t, input)  -- io.Copy(out, in)
      | _ =>
        rest.foldl
          (fun (acc : Terminal × List Nat) f =>
            let (t, out) := acc
            let p := t.fs.abs f
            if p = "/dev/null" then (t, out)
            else if p = "/dev/zero" then (t, out ++ List.replicate 1024 0)
            else
              match t.fs.getEntry base p with
              | some e =>
                if e.isDir then
                  ({ t with lastExitCode := 1 },
                   out ++ strBytes ("cat: " ++ f ++ ": 是一个目录\n"))
                else
                  let extra :=
                    if e.content ≠ [] ∧ e.content.getLast? ≠ some 10 then
                      strBytes "\n"
                    else []
                  (t, out ++ e.content ++ extra)
              | none =>
                ({ t with lastExitCode := 1 },
                 out ++ strBytes ("cat: " ++ f ++ ": 没有那个文件或目录\n")))
          (t, [])
    else if cmd = "echo" then
      (t, strBytes (goJoin rest " " ++ "\n"))
    else if cmd = "cp" then
      match rest with
      | a1 :: a2 :: _ =>
        let src := t.fs.abs a1
        let dst := t.fs.abs a2
        match t.fs.getEntry base src with
        | none =>
          ({ t with lastExitCode := 1 },
           strBytes ("cp: 无法获取 '" ++ a1 ++ "' 的状态: 没有那个文件或目录\n"))
        | some e =>
          if e.isDir then
            ({ t with lastExitCode := 1 },
             strBytes ("cp: -r 未指定; 省略目录 '" ++ a1 ++ "'\n"))
          else
            let dst := match t.fs.getEntry base dst with
              | some d => if d.isDir then pathJoin2 dst e.name else dst
              | none => dst
            match t.fs.write base dst e.content e.mode with
            | .ok fs' => ({ t with fs := fs' }, [])
            | .error _ => (t, [])  -- return value ignored in the source
      | _ => (t, [])
    else if cmd = "mv" then
      match rest with
      | a1 :: a2 :: _ =>
        let src := t.fs.abs a1
        let dst := t.fs.abs a2
        let dst := match t.fs.getEntry base dst with
          | some d => if d.isDir then pathJoin2 dst (pathBase src) else dst
          | none => dst
        match t.fs.rename base src dst with
        | .ok fs' => ({ t with fs := fs' }, [])
        | .error err =>
          ({ t with lastExitCode := 1 },
           strBytes ("mv: " ++ err.message ++ "\n"))
      | _ => (t, [])
    else if cmd = "mkdir" then
      rest.foldl
        (fun (acc : Terminal × List Nat) d =>
          let (t, out) := acc
          if ¬ goHasPref d "-" then
            match t.fs.mkdir (t.fs.abs d) with
            | .ok fs' => ({ t with fs := fs' }, out)
            | .error _ => (t, out)
          else (t, out))
        (t, [])
    else if cmd = "rm" ∨ cmd = "rmdir" then
      rest.foldl
        (fun (acc : Terminal × List Nat) f =>
          let (t, out) := acc
          if ¬ goHasPref f "-" then
            let p := t.fs.abs f
            match t.fs.getEntry base p with
            | some _ =>
              match t.fs.remove p with
              | .ok fs' => ({ t with fs := fs' }, out)
              | .error _ => (t, out)
            | none =>
              ({ t with lastExitCode := 1 },
               out ++ strBytes ("rm: 无法删除 '" ++ f ++ "': 没有那个文件或目录\n"))
          else (t, out))
        (t, [])
    else if cmd = "touch" then
      rest.foldl
        (fun (acc : Terminal × List Nat) f =>
          let (t, out) := acc
          let p := t.fs.abs f
          match t.fs.getEntry base p with
          | some _ => (t, out)
          | none =>
            match t.fs.write base p [] 0o644 with
            | .ok fs' => ({ t with fs := fs' }, out)
            | .error _ => (t, out))
        (t, [])
    else if cmd = "grep" then
      match rest with
      | [] => (t, [])  -- no pattern: stdin ignored
      | pat0 :: files0 =>
        let (pattern, files) :=
          if goHasPref pat0 "-" then
            match files0 with
            | f :: fs => (f, fs)
            | [] => (pat0, files0)
          else (pat0, files0)
        let useColor := tty
        let manyFiles := decide (files.length > 1)
        match files with
        | [] => (t, doGrep useColor pattern manyFiles "(standard input)"
            (scanLines input))
        | _ =>
          files.foldl
            (fun (acc : Terminal × List Nat) f =>
              let (t, out) := acc
              match t.fs.getEntry base (t.fs.abs f) with
              | some e =>
                if ¬ e.isDir then
                  (t, out ++ doGrep useColor pattern manyFiles f
                    (scanLines e.content))
                else
                  (t, out ++ strBytes ("grep: " ++ f ++ ": 没有那个文件或目录\n"))
              | none =>
                (t, out ++ strBytes ("grep: " ++ f ++ ": 没有那个文件或目录\n")))
            (t, [])
    else if cmd = "wc" then
      match rest with
      | [] => (t, strBytes (toString (scanLines input).length ++ "\n"))
      | _ =>
        rest.foldl
          (fun (acc : Terminal × List Nat) f =>
            let (t, out) := acc
            match t.fs.getEntry base (t.fs.abs f) with
            | some e =>
              (t, out ++ strBytes
                (toString (scanLines e.content).length ++ " " ++ f ++ "\n"))
            | none => (t, out))
          (t, [])
    else if cmd = "exit" ∨ cmd = "logout" then
      ({ t with running := false }, [])
    else if cmd ∈ elidedCmds then
      (t, [])  -- canned/presentational branch, elided
    else
      ({ t with lastExitCode := 127 }, strBytes (cmd ++ ": 未找到命令\n"))

/-!
## Pipeline executor (`terminal.go`)

`runPipelineWithOutput` runs the stages in parallel goroutines linked by
byte pipes; every stage is a deterministic stream function, each stage's
input is exactly its predecessor's full output, and EOF propagates in
stage order, so the embedding composes the stages sequentially in
data-flow order (spec §5's ordering guarantees).  Intermediate stages
write to an `io.Pipe` (`isTTY = false`); the final stage writes to the
pipeline's `finalOut`.
-/

/-- Go `strings.Split` for a single-character separator (the only form
the source uses: splitting the command line on `|`). -/
def goSplit (s : String) (sep : Char) : List String :=
  (s.data.splitOn sep).map String.mk

/-- `parseArgs` (`terminal.go`): whitespace tokenization with `'`/`"`
quoting (quote characters removed, no escapes). -/
def parseArgs (cmdline : String) : List String :=
  let fin := cmdline.data.foldl
    (fun (st : List String × List Char × Bool × Char) r =>
      let (args, buf, inQuote, quoteChar) := st
      if r = '"' ∨ r = '\'' then
        if ¬ inQuote then (args, buf, true, r)
        else if r = quoteChar then (args, buf, false, quoteChar)
        else (args, buf ++ [r], inQuote, quoteChar)
      else if r = ' ' ∨ r = '\t' then
        if ¬ inQuote then
          if buf ≠ [] then (args ++ [String.mk buf], [], inQuote, quoteChar)
          else (args, buf, inQuote, quoteChar)
        else (args, buf ++ [r], inQuote, quoteChar)
      else (args, buf ++ [r], inQuote, quoteChar))
    ([], [], false, ' ')
  if fin.2.1 ≠ [] then fin.1 ++ [String.mk fin.2.1] else fin.1

/-- The stage chain of `runPipelineWithOutput`: each stage reads its
predecessor's output; only the last stage sees `isTTY(finalOut)`. -/
def Terminal.runStages (t : Terminal) (base : BaseImage) (ttyFinal : Bool)
    (input : List Nat) : List (List String) → Terminal × List Nat
  | [] => (t, [])
  | [args] => t.runCommand base ttyFinal args input
  | args :: more =>
    let (t', out) := t.runCommand base false args input
    t'.runStages base ttyFinal out more

/-- `Terminal.runPipelineWithOutput` (`terminal.go`): drop empty stages,
then run the chain (a single command runs directly with an empty
reader). -/
def Terminal.runPipelineWithOutput (t : Terminal) (base : BaseImage)
    (ttyFinal : Bool) (pipeline : List String) : Terminal × List Nat :=
  let commands := (pipeline.map parseArgs).filter (fun a => a ≠ [])
  if commands = [] then (t, [])
  else t.runStages base ttyFinal [] commands

/-- The redirection scan of `execPipeline`: the first token `>` or `>>`
that has a successor marks the target; everything before it is the
command line. -/
def findRedirect : List String → Option (List String × String)
  | [] => none
  | [_] => none
  | x :: y :: rest =>
    if x = ">" ∨ x = ">>" then some ([], y)
    else (findRedirect (y :: rest)).map fun pr => (x :: pr.1, pr.2)

/-- `Terminal.execPipeline` (`terminal.go`): reset `$?`, extract one
output redirection, split the remaining command line on `|`, run the
pipeline, and write a redirected pipeline's collected output into the
session filesystem (`>>` is simplified to truncation in the source; the
`Write` error is discarded there).  Returns the new state and the bytes
written to the terminal.  Note `isTTY` is `true` both for the
terminal-facing `CRLFWriter` and — through the fallback branch — for the
redirection buffer. -/
def Terminal.execPipeline (t : Terminal) (base : BaseImage)
    (cmdline : String) : Terminal × List Nat :=
  let t := { t with lastExitCode := 0 }
  let parts := parseArgs cmdline
  match findRedirect parts with
  | some (args, target) =>
    let fileWritePath := t.fs.abs target
    let cmdline' := goJoin args " "
    let (t', out) := t.runPipelineWithOutput base true (goSplit cmdline' '|')
    let fs' := match t'.fs.write base fileWritePath out 0o644 with
      | .ok f => f
      | .error _ => t'.fs
    ({ t' with fs := fs' }, [])
  | none =>
    t.runPipelineWithOutput base true (goSplit cmdline '|')

/-!
## Connection handlers (`telnet.go`, `ssh.go`, `rlogin.go`)

Each handler serves its session with `fs := GlobalSessionFS` — the single
shared session filesystem initialized once in `initFS` — not with a
fresh `NewSessionFS`.  Pointer sharing is modeled by reading and storing
the one global state.
-/

/-- The process-wide mutable state the handlers consult. -/
structure ServerState where
  globalFS : SessionFS
  deriving Repr, DecidableEq

/-- The server state right after `initFS`. -/
def initServer : ServerState := { globalFS := initialGlobalSessionFS }

/-- The session filesystem a new Telnet/SSH/rlogin connection is served
with (`fs := GlobalSessionFS` in `handleTelnetConn`, `handleSSHConn` and
`handleRLoginConn`). -/
def handleConnFS (s : ServerState) : SessionFS := s.globalFS

/-- Because every terminal holds a pointer to the shared filesystem, a
session's filesystem updates are updates of `GlobalSessionFS`. -/
def publishFS (t : Terminal) : ServerState := { globalFS := t.fs }

/-!
## Telnet read path (`telnet.go`, `TelnetStream.Read`)

The read loop is re-expressed as a byte-at-a-time state machine over the
inbound stream; the states correspond to the positions of the successive
`ReadByte` calls in one loop iteration.  Option/subnegotiation *replies*
go to the raw connection, not to the application stream, and are
therefore not part of this decoder's output; an input that ends in the
middle of a protocol sequence produces no further application bytes
(`Read` returns the connection error).
-/

/-- Decoder state: `norm s` is the top of the loop with `skipLF = s`;
`iac` follows an IAC; `opt` follows IAC WILL/WONT/DO/DONT; `sb`/`sbIac`
are inside a subnegotiation. -/
inductive TelState where
  | norm (skipLF : Bool)
  | iac
  | opt
  | sb
  | sbIac
  deriving Repr, DecidableEq

/-- Telnet command bytes (`telnet.go`). -/
def cmdSE : Nat := 240
def cmdNOP : Nat := 241
def cmdGA : Nat := 249
def cmdSB : Nat := 250
def cmdWILL : Nat := 251
def cmdWONT : Nat := 252
def cmdDO : Nat := 253
def cmdDONT : Nat := 254
def cmdIAC : Nat := 255

/-- The application bytes `TelnetStream.Read` delivers from the inbound
bytes, starting in the given state. -/
def telnetRead : TelState → List Nat → List Nat
  | _, [] => []
  | .norm s, b :: rest =>
    if s ∧ b = 10 then telnetRead (.norm false) rest
    else if b = cmdIAC then telnetRead .iac rest
    else if b = 13 then 10 :: telnetRead (.norm true) rest
    else b :: telnetRead (.norm false) rest
  | .iac, b :: rest =>
    if b = cmdIAC then cmdIAC :: telnetRead (.norm false) rest
    else if b = cmdWILL ∨ b = cmdWONT ∨ b = cmdDO ∨ b = cmdDONT then
      telnetRead .opt rest
    else if b = cmdSB then telnetRead .sb rest
    else telnetRead (.norm false) rest  -- NOP, GA, and unknown commands
  | .opt, _ :: rest => telnetRead (.norm false) rest
  | .sb, b :: rest =>
    if b = cmdIAC then telnetRead .sbIac rest else telnetRead .sb rest
  | .sbIac, b :: rest =>
    if b = cmdSE then telnetRead (.norm false) rest else telnetRead .sb rest

/-!
## Explicit-heap model for BaseFS immutability (`fs.go` + `srv_sftp.go`)

The value-level model above cannot express *in-place* mutation of a
shared backing array, which is exactly what the BaseFS-immutability
claim is about.  This small second model makes Go slices explicit: a
heap is a list of backing arrays, a slice is (array id, start, length,
capacity), and `copy` writes into the array.  Only the operations the
trace needs are modeled — `Chmod`'s shallow copy (`newEntry := *e`) and
the two phases of `SFTPWriter.WriteAt` — each translated from the same
source lines as its value-level counterpart.
-/

/-- A Go slice header. -/
structure GoSlice where
  cell : Nat
  start : Nat
  len : Nat
  cap : Nat
  deriving Repr, DecidableEq

/-- A `FileEntry` whose content is a slice header into the heap. -/
structure HFileEntry where
  name : String
  isDir : Bool
  content : GoSlice
  mode : Nat
  uid : Nat
  gid : Nat
  deriving Repr, DecidableEq

/-- The heap: backing arrays indexed by cell id. -/
abbrev Heap := List (List Nat)

/-- The bytes a slice denotes. -/
def readSlice (h : Heap) (s : GoSlice) : List Nat :=
  ((h.getD s.cell []).drop s.start).take s.len

/-- Allocate a fresh zero-initialized array of `cap` bytes (Go `make`
zeroes the whole backing array). -/
def heapAlloc (h : Heap) (cap : Nat) : Heap × Nat :=
  (h ++ [List.replicate cap 0], h.length)

/-- Overwrite `cnt` bytes of cell `cell` starting at `pos` with `src`
(truncated to `cnt`), in place. -/
def heapWrite (h : Heap) (cell pos : Nat) (src : List Nat) : Heap :=
  h.set cell (copyAt (h.getD cell []) pos src)

/-- Session state of the heap model: heap, base map and overlay. -/
structure HState where
  heap : Heap
  baseFind : String → Option HFileEntry
  overlay : List (String × Option HFileEntry)

/-- `GetEntry` in the heap model. -/
def HState.getEntry (st : HState) (p : String) : Option HFileEntry :=
  let p := pathClean p
  match assocGet st.overlay p with
  | some (some e) => some e
  | some none => none
  | none => st.baseFind p

/-- `SessionFS.Chmod` in the heap model: the overlay-miss branch performs
Go's `newEntry := *e` — a struct copy whose `Content` *shares the base
entry's backing array*. -/
def HState.chmod (st : HState) (p : String) (mode : Nat) :
    Except GoErr HState :=
  match st.getEntry p with
  | none => .error .notExist
  | some e =>
    match assocGet st.overlay p with
    | some (some existing) =>
      let existing := { existing with
        mode := goAndNot existing.mode 0o777 ||| (mode &&& 0o777) }
      .ok { st with overlay := assocSet st.overlay p (some existing) }
    | _ =>
      let newEntry := { e with
        mode := goAndNot e.mode 0o777 ||| (mode &&& 0o777) }
      .ok { st with overlay := assocSet st.overlay p (some newEntry) }

/-- `SFTPWriter.WriteAt` in the heap model.  Phase 1 deep-copies base
content into a fresh array only when the path is not already in overlay;
phase 2 grows the array only when `end` exceeds the slice's *capacity*,
and otherwise copies the payload **into the existing backing array** —
the in-place write at the heart of the immutability claim. -/
def HState.writeAt (st : HState) (path : String) (p : List Nat)
    (off : Int) : HState × Option GoErr :=
  let (st, entry) :=
    match assocGet st.overlay path with
    | some (some e) => (st, e)
    | _ =>
      let (baseContent, mode, uid, gid) :=
        match st.baseFind path with
        | some be => (be.content, be.mode, be.uid, be.gid)
        | none => ({ cell := 0, start := 0, len := 0, cap := 0 }, 0o644, 0, 0)
      let initCap :=
        if int64Wrap (off + p.length) > (baseContent.len : Int) then
          (int64Wrap (off + p.length)).toNat
        else baseContent.len
      let (h', c) := heapAlloc st.heap initCap
      let h' := heapWrite h' c 0 (readSlice st.heap baseContent)
      let newContent : GoSlice :=
        { cell := c, start := 0, len := baseContent.len, cap := initCap }
      let entry : HFileEntry :=
        { name := pathBase path, isDir := false, content := newContent,
          mode := mode, uid := uid, gid := gid }
      let st' := { st with
        heap := h',
        overlay := assocSet st.overlay path (some entry) }
      (st', entry)
  let st := { st with overlay := assocSet st.overlay path (some entry) }
  let endPos : Int := int64Wrap (off + p.length)
  if endPos > (MaxFileSize : Int) then
    (st, some (.errNew "quota exceeded"))
  else
    let content := entry.content
    -- growth: reallocate only when `end` exceeds the capacity
    let (st, content) :=
      if endPos > (content.cap : Int) then
        let newCap :=
          let nc := endPos.toNat
          let nc := if nc < content.cap * 2 then content.cap * 2 else nc
          if nc > MaxFileSize then MaxFileSize else nc
        let (h', c) := heapAlloc st.heap newCap
        let h' := heapWrite h' c 0 (readSlice st.heap content)
        ({ st with heap := h' },
         { cell := c, start := content.start * 0, len := content.len,
           cap := newCap })
      else (st, content)
    -- length extension within capacity: same array, larger view
    let content :=
      if endPos > (content.len : Int) then { content with len := endPos.toNat }
      else content
    if off < 0 ∨ (content.len : Int) < off then
      (st, some (.panicked "slice bounds out of range"))
    else
      let st := { st with
        heap := heapWrite st.heap content.cell (content.start + off.toNat) p,
        overlay := assocSet st.overlay path
          (some { entry with content := content }) }
      (st, none)

/-- The initial heap state for the immutability trace: the BaseFS
`/etc/hosts` entry of `initFS`, its content in array 0.  (The other
BaseFS entries are irrelevant to the trace and elided.) -/
def hostsHState : HState :=
  { heap := [strBytes hostsContent]
    baseFind := fun p =>
      if p = "/etc/hosts" then
        some { name := "hosts", isDir := false,
               content := { cell := 0, start := 0,
                            len := (strBytes hostsContent).length,
                            cap := (strBytes hostsContent).length },
               mode := 0o644, uid := 0, gid := 0 }
      else none
    overlay := [] }

/-!
## Claims
-/

/-- **C3** (confirmed).  Read-your-own-writes: for every session, path
`p` and content `data` with `data.length ≤ MaxFileSize` (5 MiB),
`Write(p, data, mode)` succeeds and a subsequent `GetEntry(p)` in the
same session finds an entry whose content equals `data`.  (Stated for
every path; the claim's "absolute normalized" paths are a special
case.) -/
theorem write_getEntry_roundtrip (base : BaseImage) (fs : SessionFS)
    (p : String) (data : List Nat) (mode : Nat)
    (hlen : data.length ≤ MaxFileSize) :
    ∃ fs', fs.write base p data mode = .ok fs' ∧
      ∃ e, fs'.getEntry base p = some e ∧ e.content = data := by
  have hq : ¬ data.length > MaxFileSize := not_lt.mpr hlen
  rcases h : assocGet fs.overlay (pathClean p) with _ | (_ | e'')
  all_goals
    simp only [SessionFS.write, hq, h]
    refine ⟨_, rfl, ?_⟩
    simp only [SessionFS.getEntry, assocGet_assocSet_same]
    exact ⟨_, rfl, rfl⟩

/-- Witness for C3 at a concrete input: writing two bytes to `/tmp/x` in
a fresh session on the shipped image and reading them back. -/
theorem write_getEntry_roundtrip_witness :
    (strBytes "hi").length ≤ MaxFileSize ∧
    ∃ fs', NewSessionFS.write initBase "/tmp/x" (strBytes "hi") 0 = .ok fs' ∧
      ∃ e, fs'.getEntry initBase "/tmp/x" = some e ∧
        e.content = strBytes "hi" :=
  ⟨by decide,
   write_getEntry_roundtrip initBase NewSessionFS "/tmp/x" (strBytes "hi") 0
     (by decide)⟩

/-- The directory entry `Mkdir` installs. -/
def freshDirEntry (p : String) : FileEntry :=
  { name := pathBase (pathClean p), isDir := true, content := [],
    mode := 0o755 ||| osModeDir, uid := 0, gid := 0, nlink := 2 }

/-- **C10** (confirmed).  `Mkdir(p)` never returns an error and
unconditionally installs a fresh empty root-owned directory entry in the
overlay at the cleaned `p` — even over an existing file — after which
`GetEntry(p)` in that session returns exactly the fresh directory entry
(so any prior content at `p` is unreachable there). -/
theorem mkdir_unconditional (base : BaseImage) (fs : SessionFS) (p : String) :
    fs.mkdir p = .ok (fs.mkdirFS p) ∧
    assocGet (fs.mkdirFS p).overlay (pathClean p) = some (some (freshDirEntry p)) ∧
    (fs.mkdirFS p).getEntry base p = some (freshDirEntry p) := by
  refine ⟨rfl, ?_, ?_⟩
  · simp [SessionFS.mkdirFS, freshDirEntry, assocGet_assocSet_same]
  · simp [SessionFS.getEntry, SessionFS.mkdirFS, freshDirEntry,
      assocGet_assocSet_same]

/-- **C4, counterexample.**  The claim quantifies over all normalized
paths `a`, `b` with `GetEntry(a)` defined — including `a = b`.  Renaming
`/etc/hosts` onto itself succeeds, yet afterwards `GetEntry` reports the
path as *not found* (the tombstone written second wins), not an entry
with the old content as the claim requires. -/
theorem rename_self_loses_file :
    (NewSessionFS.getEntry initBase "/etc/hosts").isSome = true ∧
    ∃ fs', NewSessionFS.rename initBase "/etc/hosts" "/etc/hosts" = .ok fs' ∧
      fs'.getEntry initBase "/etc/hosts" = none := by
  refine ⟨by decide, _, rfl, by decide⟩

/-- **C4** (corrected: the source and destination must differ).  For
normalized `a ≠ b` with `GetEntry(a) = e`, `Rename(a, b)` succeeds,
`GetEntry(b)` then returns an entry with `e`'s content, and `GetEntry(a)`
reports not-found. -/
theorem rename_roundtrip (base : BaseImage) (fs : SessionFS) (a b : String)
    (e : FileEntry) (ha : pathClean a = a) (hb : pathClean b = b)
    (hne : a ≠ b) (hget : fs.getEntry base a = some e) :
    ∃ fs', fs.rename base a b = .ok fs' ∧
      (∃ e', fs'.getEntry base b = some e' ∧ e'.content = e.content) ∧
      fs'.getEntry base a = none := by
  simp only [SessionFS.rename, hget]
  refine ⟨_, rfl, ⟨{ e with name := pathBase b }, ?_, rfl⟩, ?_⟩
  · simp only [SessionFS.getEntry, hb]
    rw [assocGet_assocSet_ne _ _ _ _ hne, assocGet_assocSet_same]
  · simp only [SessionFS.getEntry, ha, assocGet_assocSet_same]

/-- Witness for C4 at a concrete input: renaming `/etc/hosts` to
`/etc/hosts.bak` in a fresh session on the shipped image. -/
theorem rename_roundtrip_witness :
    pathClean "/etc/hosts" = "/etc/hosts" ∧
    pathClean "/etc/hosts.bak" = "/etc/hosts.bak" ∧
    (NewSessionFS.getEntry initBase "/etc/hosts").isSome = true ∧
    ∃ fs', NewSessionFS.rename initBase "/etc/hosts" "/etc/hosts.bak" = .ok fs' ∧
      (∃ e', fs'.getEntry initBase "/etc/hosts.bak" = some e' ∧
        e'.content = strBytes hostsContent) ∧
      fs'.getEntry initBase "/etc/hosts" = none := by
  have h := rename_roundtrip initBase NewSessionFS "/etc/hosts"
    "/etc/hosts.bak"
    { name := "hosts", isDir := false, content := strBytes hostsContent,
      mode := 0o644, uid := 0, gid := 0, nlink := 1 }
    (by decide) (by decide) (by decide) (by decide)
  exact ⟨by decide, by decide, by decide, h⟩

/-- **C5, counterexample.**  The SFTP quota condition is computed as
`end := int(off) + len(p)` in 64-bit machine arithmetic.  At
`off = 2^63 - 1` (a legal SFTP offset) with one byte of payload the
mathematical sum `off + len(data) = 2^63` exceeds `MAX_FILE_SIZE`, so the
claim requires a quota-exceeded failure — but `end` wraps to `-2^63`,
the quota check passes, and the call does not fail with the quota error
(it dies on the subsequent out-of-range slice operation instead). -/
theorem writeAt_overflow_no_quota_error :
    (MaxFileSize : Int) < (2 ^ 63 - 1) + ([0] : List Nat).length ∧
    (NewSessionFS.writeAt initBase "/tmp/t" [0] (2 ^ 63 - 1)).2 ≠
      some (.errNew "quota exceeded") ∧
    (NewSessionFS.writeAt initBase "/tmp/t" [0] (2 ^ 63 - 1)).2 =
      some (.panicked "slice bounds out of range") := by
  refine ⟨by decide, by decide, by decide⟩

/-- **C5** (corrected: the SFTP condition uses the 64-bit wrapped sum).
Terminal-path `Write` succeeds at exactly `MAX_FILE_SIZE` bytes and fails
with the quota error at one byte more; SFTP `WriteAt(data, off)` fails
with its quota-exceeded error iff the 64-bit two's-complement value of
`off + len(data)` exceeds `MAX_FILE_SIZE`. -/
theorem quota_boundary (base : BaseImage) (fs : SessionFS) (p q : String)
    (mode : Nat) (data pdata : List Nat) (off : Int) :
    (data.length = MaxFileSize → (fs.write base p data mode).isOk = true) ∧
    (data.length = MaxFileSize + 1 →
      fs.write base p data mode = .error (.errNew "超出磁盘限额")) ∧
    ((fs.writeAt base q pdata off).2 = some (.errNew "quota exceeded") ↔
      (MaxFileSize : Int) < int64Wrap (off + pdata.length)) := by
  refine ⟨?_, ?_, ?_⟩
  · intro h
    have hq : ¬ data.length > MaxFileSize := by omega
    rcases hov : assocGet fs.overlay (pathClean p) with _ | (_ | e) <;>
      simp [SessionFS.write, hq, hov, Except.isOk, Except.toBool]
  · intro h
    have hq : data.length > MaxFileSize := by omega
    simp [SessionFS.write, hq]
  · by_cases hq : (MaxFileSize : Int) < int64Wrap (off + pdata.length)
    · simp [SessionFS.writeAt, hq]
    · rw [iff_false_intro hq, iff_false]
      simp only [SessionFS.writeAt, if_neg hq]
      rw [apply_ite Prod.snd]
      split <;> simp

/-- Witness for C5 at concrete inputs: a 5 MiB write succeeds, a
5 MiB + 1 write fails with the quota error, and a small offset write
satisfies the wrapped-sum characterization. -/
theorem quota_boundary_witness :
    ((NewSessionFS.write initBase "/tmp/q" (List.replicate MaxFileSize 0)
        0).isOk = true) ∧
    (NewSessionFS.write initBase "/tmp/q" (List.replicate (MaxFileSize + 1) 0)
        0 = .error (.errNew "超出磁盘限额")) ∧
    ((NewSessionFS.writeAt initBase "/tmp/q" [1, 2] 7).2 =
        some (.errNew "quota exceeded") ↔
      (MaxFileSize : Int) < int64Wrap (7 + ([1, 2] : List Nat).length)) :=
  ⟨(quota_boundary initBase NewSessionFS "/tmp/q" "/tmp/q" 0
      (List.replicate MaxFileSize 0) [1, 2] 7).1 (by simp),
   (quota_boundary initBase NewSessionFS "/tmp/q" "/tmp/q" 0
      (List.replicate (MaxFileSize + 1) 0) [1, 2] 7).2.1 (by simp),
   (quota_boundary initBase NewSessionFS "/tmp/q" "/tmp/q" 0
      (List.replicate MaxFileSize 0) [1, 2] 7).2.2⟩

/-- **C6** (confirmed).  `ListDir(p)` fails with `NotFound` exactly when
the cleaned path does not resolve (overlay-then-base) to a directory;
otherwise it returns a list that is sorted ascending by lower-cased name
and is a permutation of the merged items — the BaseFS cached children
overridden by the overlay bindings under `p` (tombstones removing names,
entries replacing or inserting theirs). -/
theorem listDir_contract (base : BaseImage) (fs : SessionFS) (p : String) :
    (fs.listDir base p = .error .notExist ↔
      ¬ ∃ e, fs.getEntry base (pathClean p) = some e ∧ e.isDir = true) ∧
    ∀ l, fs.listDir base p = .ok l →
      l.Sorted nameLe ∧
      l.Perm ((fs.listItems base (pathClean p)).map (·.2)) := by
  rcases hg : fs.getEntry base (pathClean p) with _ | e
  · constructor
    · simp only [SessionFS.listDir, hg]
      simp
    · intro l hl
      simp only [SessionFS.listDir, hg] at hl
      exact absurd hl (by simp)
  · by_cases hd : e.isDir
    · constructor
      · simp only [SessionFS.listDir, hg, if_pos hd]
        constructor
        · intro h
          exact absurd h (by simp)
        · intro h
          exact absurd ⟨e, rfl, hd⟩ h
      · intro l hl
        simp only [SessionFS.listDir, hg, if_pos hd] at hl
        obtain rfl : List.insertionSort nameLe
            ((fs.listItems base (pathClean p)).map (·.2)) = l :=
          Except.ok.inj hl
        exact ⟨List.sorted_insertionSort nameLe _,
          List.perm_insertionSort nameLe _⟩
    · constructor
      · simp only [SessionFS.listDir, hg, if_neg hd]
        constructor
        · intro _
          rintro ⟨e', he', hdir⟩
          obtain rfl : e = e' := Option.some.inj he'
          exact hd hdir
        · intro _
          trivial
      · intro l hl
        simp only [SessionFS.listDir, hg, if_neg hd] at hl
        exact absurd hl (by simp)

/-- Witness for C6 at a concrete input: listing `/etc` in a session that
wrote a new file into `/etc` and removed `/etc/fstab`. -/
theorem listDir_contract_witness :
    ∃ fs1 fs2 l,
      NewSessionFS.write initBase "/etc/zz.conf" [65] 0 = .ok fs1 ∧
      fs1.remove "/etc/fstab" = .ok fs2 ∧
      fs2.listDir initBase "/etc" = .ok l ∧
      l.Sorted nameLe ∧
      l.Perm ((fs2.listItems initBase (pathClean "/etc")).map (·.2)) := by
  refine ⟨_, _, _, rfl, rfl, rfl, ?_⟩
  exact (listDir_contract initBase _ "/etc").2 _ rfl

set_option maxRecDepth 8000

/-- The terminal a fresh telnet-style login on the shipped image is given
(shared `GlobalSessionFS`, `USER=root`). -/
def demoTerm : Terminal :=
  NewTerminal (handleConnFS initServer) [("USER", "root")] 1000

/-- **C7, counterexample.**  `ls` on a missing path records exit code
**2**, not 1 as the claim requires for every path-not-found failure. -/
theorem ls_missing_path_records_2 :
    (demoTerm.runCommand initBase true ["ls", "/nonexistent"] []).1.lastExitCode
      = 2 ∧ (2 : Nat) ≠ 1 := by
  constructor
  · rfl
  · decide

/-- **C7** (corrected).  Exit-code recording of the simulated commands on
missing paths: `cat`, `cd`, `cp`, `mv` and `rm` record 1, but `ls`
records **2** and `grep` records **nothing** (the exit code is left
unchanged); a command name outside the command library records 127. -/
theorem exit_code_semantics (base : BaseImage) (tty : Bool) (t : Terminal)
    (p q c : String) (hp : goHasPref p "$" = false)
    (hq : goHasPref q "$" = false) (hph : goHasPref p "-" = false) :
    (t.fs.listDir base (t.fs.abs p) = .error .notExist →
      (t.runCommand base tty ["ls", p] []).1.lastExitCode = 2) ∧
    (t.fs.abs p ≠ "/dev/null" → t.fs.abs p ≠ "/dev/zero" →
      t.fs.getEntry base (t.fs.abs p) = none →
      (t.runCommand base tty ["cat", p] []).1.lastExitCode = 1) ∧
    (t.fs.getEntry base (t.fs.abs p) = none →
      (t.runCommand base tty ["cd", p] []).1.lastExitCode = 1) ∧
    (t.fs.getEntry base (t.fs.abs p) = none →
      (t.runCommand base tty ["cp", p, q] []).1.lastExitCode = 1) ∧
    (t.fs.getEntry base (t.fs.abs p) = none →
      (t.runCommand base tty ["mv", p, q] []).1.lastExitCode = 1) ∧
    (t.fs.getEntry base (t.fs.abs p) = none →
      (t.runCommand base tty ["rm", p] []).1.lastExitCode = 1) ∧
    (t.fs.getEntry base (t.fs.abs q) = none →
      (t.runCommand base tty ["grep", p, q] []).1.lastExitCode =
        t.lastExitCode) ∧
    (c ∉ switchCmds →
      (t.runCommand base tty [c] []).1.lastExitCode = 127) := by
  refine ⟨?_, ?_, ?_, ?_, ?_, ?_, ?_, ?_⟩
  · intro hl
    simp only [Terminal.runCommand, expandArgs, List.map, hp, runLs]
    simp [hph, hl]
  · intro h1 h2 hg
    simp only [Terminal.runCommand, expandArgs, List.map, hp]
    simp [h1, h2, hg]
  · intro hg
    simp only [Terminal.runCommand, expandArgs, List.map, hp]
    simp [hg]
  · intro hg
    simp only [Terminal.runCommand, expandArgs, List.map, hp,
      hq]
    simp [hg]
  · intro hg
    simp only [Terminal.runCommand, expandArgs, List.map, hp,
      hq]
    rcases hdst : t.fs.getEntry base (t.fs.abs q) with _ | d <;>
      simp [hdst, SessionFS.rename, hg]
  · intro hg
    simp only [Terminal.runCommand, expandArgs, List.map, hp]
    simp [hph, hg]
  · intro hg
    simp only [Terminal.runCommand, expandArgs, List.map, hp,
      hq]
    simp [hph, hg]
  · intro hc
    simp only [switchCmds, elidedCmds, List.mem_append, List.mem_cons,
      List.not_mem_nil] at hc
    push_neg at hc
    obtain ⟨⟨n1, n2, n3, n4, n5, n6, n7, n8, n9, n10, n11, n12, n13, n14, n15, n16, -⟩, m1, m2, m3, m4, m5, m6, m7, m8, m9, m10, m11, m12, m13, m14, m15, m16, m17, m18, m19, m20, m21, m22, m23, m24, m25, -⟩ := hc
    simp [Terminal.runCommand, expandArgs, elidedCmds,
      n1, n2, n3, n4, n5, n6, n7, n8, n9, n10, n11, n12, n13, n14, n15, n16, m1, m2, m3, m4, m5, m6, m7, m8, m9, m10, m11, m12, m13, m14, m15, m16, m17, m18, m19, m20, m21, m22, m23, m24, m25]

/-- Witness for C7 at concrete inputs on the shipped image: the missing
path `/nope`, destination `/tmp/d`, pattern-file pair and the unknown
command `frobnicate`. -/
theorem exit_code_semantics_witness :
    ((demoTerm.runCommand initBase true ["cat", "/nope"] []).1.lastExitCode
      = 1) ∧
    ((demoTerm.runCommand initBase true ["cd", "/nope"] []).1.lastExitCode
      = 1) ∧
    ((demoTerm.runCommand initBase true ["cp", "/nope", "/tmp/d"]
        []).1.lastExitCode = 1) ∧
    ((demoTerm.runCommand initBase true ["mv", "/nope", "/tmp/d"]
        []).1.lastExitCode = 1) ∧
    ((demoTerm.runCommand initBase true ["rm", "/nope"] []).1.lastExitCode
      = 1) ∧
    ((demoTerm.runCommand initBase true ["grep", "/nope", "/tmp/d"]
        []).1.lastExitCode = demoTerm.lastExitCode) ∧
    ((demoTerm.runCommand initBase true ["frobnicate"] []).1.lastExitCode
      = 127) ∧
    ((demoTerm.runCommand initBase true ["ls", "/nope"] []).1.lastExitCode
      = 2) :=
  have h := exit_code_semantics initBase true demoTerm "/nope" "/tmp/d"
    "frobnicate" (by decide) (by decide) (by decide)
  ⟨h.2.1 (by decide) (by decide) (by rfl), h.2.2.1 (by rfl),
   h.2.2.2.1 (by rfl), h.2.2.2.2.1 (by rfl), h.2.2.2.2.2.1 (by rfl),
   h.2.2.2.2.2.2.1 (by rfl), h.2.2.2.2.2.2.2 (by decide), h.1 (by rfl)⟩

/-- **C8, counterexample.**  A CR NUL pair does *not* become exactly one
`\n`: the decoder emits `\n` for the CR, and the NUL — which only an LF
may be swallowed in place of — passes through. -/
theorem telnet_cr_nul_passes_nul :
    telnetRead (.norm false) [13, 0] = [10, 0] ∧
    telnetRead (.norm false) [13, 0] ≠ [10] := by
  exact ⟨rfl, by decide⟩

/-- **C8** (corrected: CR NUL yields `\n` followed by the NUL byte).  In
any top-of-loop state: CR LF becomes one `\n`; CR NUL becomes `\n`
followed by `0x00`; IAC IAC becomes one literal `0xFF`; and any other
byte that is not CR or IAC (and is not an LF being swallowed after a CR)
passes through unchanged, in order. -/
theorem telnet_read_transformation (s : Bool) (b : Nat) (rest : List Nat)
    (hb13 : b ≠ 13) (hb255 : b ≠ 255) (hbLF : ¬(s = true ∧ b = 10)) :
    telnetRead (.norm s) (13 :: 10 :: rest) =
      10 :: telnetRead (.norm false) rest ∧
    telnetRead (.norm s) (13 :: 0 :: rest) =
      10 :: 0 :: telnetRead (.norm false) rest ∧
    telnetRead (.norm s) (255 :: 255 :: rest) =
      255 :: telnetRead (.norm false) rest ∧
    telnetRead (.norm s) (b :: rest) = b :: telnetRead (.norm false) rest := by
  refine ⟨?_, ?_, ?_, ?_⟩
  · cases s <;> simp [telnetRead, cmdIAC]
  · cases s <;> simp [telnetRead, cmdIAC]
  · cases s <;> simp [telnetRead, cmdIAC]
  · cases s
    · simp [telnetRead, cmdIAC, hb13, hb255]
    · have hb10 : b ≠ 10 := fun h => hbLF ⟨rfl, h⟩
      simp [telnetRead, cmdIAC, hb13, hb255, hb10]

/-- Witness for C8 at concrete bytes (`b = 65`, `s = false`, a one-byte
tail). -/
theorem telnet_read_transformation_witness :
    telnetRead (.norm false) [13, 10, 66] =
      10 :: telnetRead (.norm false) [66] ∧
    telnetRead (.norm false) [13, 0, 66] =
      10 :: 0 :: telnetRead (.norm false) [66] ∧
    telnetRead (.norm false) [255, 255, 66] =
      255 :: telnetRead (.norm false) [66] ∧
    telnetRead (.norm false) [65, 66] = 65 :: telnetRead (.norm false) [66] :=
  telnet_read_transformation false 65 [66] (by decide) (by decide) (by decide)

/-- **C9** (confirmed).  `cat /etc/passwd | grep root | wc` against the
initial image writes exactly `1\n` to the terminal sink (one `/etc/passwd`
line contains "root") and leaves the last exit code at 0. -/
theorem pipeline_cat_grep_wc :
    (demoTerm.execPipeline initBase "cat /etc/passwd | grep root | wc").2 =
      strBytes "1\n" ∧
    (demoTerm.execPipeline initBase
      "cat /etc/passwd | grep root | wc").1.lastExitCode = 0 := by
  exact ⟨rfl, rfl⟩

/-- **C1, counterexample.**  Sessions are *not* isolated: every login is
served `GlobalSessionFS`.  Session A (a telnet login) runs
`echo hello > /etc/hosts`; session B, connected to the same server,
then reads `hello\n` from `/etc/hosts` — not the canonical BaseFS
content the claim promises — and a session connected after A likewise
sees `hello\n`. -/
theorem sessions_not_isolated :
    ((NewTerminal (handleConnFS (publishFS
        (demoTerm.execPipeline initBase "echo hello > /etc/hosts").1))
        [] 2000).execPipeline initBase "cat /etc/hosts").2 =
      strBytes "hello\n" ∧
    strBytes "hello\n" ≠ strBytes hostsContent := by
  exact ⟨rfl, by decide⟩

/-- **C1** (corrected: all logins share one overlay).  Every connection
handler serves `GlobalSessionFS`, so whenever a session writes `data` at
`p` through its (shared) filesystem, any session connected to the
resulting server state — concurrently or later — reads `data` back at
`p`; only a restart restores the canonical base content. -/
theorem sessions_share_global_fs (base : BaseImage) (s : ServerState)
    (env env' : List (String × String)) (pid pid' : Nat) (p : String)
    (data : List Nat) (mode : Nat) (fs' : SessionFS)
    (hw : (NewTerminal (handleConnFS s) env pid).fs.write base p data mode =
      .ok fs') :
    (NewTerminal (handleConnFS (publishFS
        { NewTerminal (handleConnFS s) env pid with fs := fs' }))
        env' pid').fs = fs' ∧
    ∃ e, (NewTerminal (handleConnFS (publishFS
        { NewTerminal (handleConnFS s) env pid with fs := fs' }))
        env' pid').fs.getEntry base p = some e ∧ e.content = data := by
  refine ⟨rfl, ?_⟩
  show ∃ e, fs'.getEntry base p = some e ∧ e.content = data
  have hfs : (NewTerminal (handleConnFS s) env pid).fs = s.globalFS := rfl
  rw [hfs] at hw
  by_cases hlen : data.length > MaxFileSize
  · rw [SessionFS.write, if_pos hlen] at hw
    exact absurd hw (by simp)
  · rcases h : assocGet s.globalFS.overlay (pathClean p) with _ | (_ | e'')
    all_goals
      rw [SessionFS.write, if_neg hlen] at hw
      simp only [h] at hw
      obtain rfl := (Except.ok.inj hw).symm
      simp only [SessionFS.getEntry, assocGet_assocSet_same]
      exact ⟨_, rfl, rfl⟩

/-- Witness for C1 at a concrete input: session A writes `hi` to
`/tmp/shared`, session B (fresh login to the same server) reads it. -/
theorem sessions_share_global_fs_witness :
    ∃ fs', (NewTerminal (handleConnFS initServer) [] 1).fs.write initBase
        "/tmp/shared" (strBytes "hi") 0 = .ok fs' ∧
      ∃ e, (NewTerminal (handleConnFS (publishFS
          { NewTerminal (handleConnFS initServer) [] 1 with fs := fs' }))
          [] 2).fs.getEntry initBase "/tmp/shared" = some e ∧
        e.content = strBytes "hi" := by
  refine ⟨_, rfl, ?_⟩
  exact (sessions_share_global_fs initBase initServer [] [] 1 2 "/tmp/shared"
    (strBytes "hi") 0 _ rfl).2

/-- The bytes of `/etc/hosts` after the in-place corruption: `X` over the
first byte. -/
def mutatedHosts : String := "X27.0.0.1 localhost\n127.0.1.1 ubuntu-server\n"

/-- **C2** (code bug).  BaseFS is *not* immune to the claimed operation
sequences: `Chmod("/etc/hosts", …)` copies the base entry shallowly, so
the overlay entry's content slice still points into the BaseFS backing
array; a subsequent SFTP `WriteAt("X", 0)` on the same path finds that
overlay entry, stays within its capacity, and copies the payload **into
the shared array** — after which the BaseFS `/etc/hosts` entry itself
reads `X27.0.0.1 …`, no longer its process-start bytes. -/
theorem basefs_mutated_in_place :
    ∃ st1, hostsHState.chmod "/etc/hosts" 0o777 = .ok st1 ∧
    ∃ be, hostsHState.baseFind "/etc/hosts" = some be ∧
      readSlice hostsHState.heap be.content = strBytes hostsContent ∧
      (st1.writeAt "/etc/hosts" [88] 0).2 = none ∧
      readSlice (st1.writeAt "/etc/hosts" [88] 0).1.heap be.content =
        strBytes mutatedHosts ∧
      readSlice (st1.writeAt "/etc/hosts" [88] 0).1.heap be.content ≠
        strBytes hostsContent := by
  refine ⟨_, rfl, _, rfl, by decide, rfl, by decide, by decide⟩
